import Mathlib

/-!
Verification of the reconciliation core of `ad-to-ldap-sync`.

The definitions below are shallow embeddings of the Python source:

* `src/utils/utilities.py` (`fill_array_gaps`, the gap-filling allocator);
* `src/runners/group_sync.py` (the methods of `AdLdapGroupSync`);
* `src/runners/user_sync.py` (the run-status-relevant pipeline of
  `AdLdapUserSync`).

Directory traffic (LDAP searches and modifications) is modelled by oracle
functions bundled in an environment structure; Python dictionaries are
modelled as association lists; Python sets as lists with set-style
insertion (membership is what the claims are about); Python integers as
`Int` or `Nat`.  The mutable attributes of the class (`run_status`, the
user lookup cache) together with the count of `logger.warning` calls form
an explicit state record threaded through every method that mutates them.
Every site of the source that executes `self.run_status = False`
additionally bumps a `failures` counter in the embedding, which makes the
event "a recoverable failure occurred" observable in theorems.
-/

namespace AdLdapSync

/-- Embedding of the loop of `utilities.fill_array_gaps`:
`while offset in numbers: offset += 1`.  The fuel argument bounds the
number of iterations; each iteration consumes one distinct value of the
list, so `numbers.length + 1` fuel is never exhausted (proved in
`fillLoop_spec`). -/
def fillLoop (numbers : List Int) : Nat → Int → Int
  | 0, offset => offset
  | fuel + 1, offset =>
    if offset ∈ numbers then fillLoop numbers fuel (offset + 1) else offset

/-- Embedding of `utilities.fill_array_gaps`: the source first sorts the
list in place (`numbers.sort()`, order is irrelevant to the membership
tests of the loop) and then increments `offset` while it occurs in the
list. -/
def fill_array_gaps (numbers : List Int) (offset : Int) : Int :=
  let sorted := numbers.insertionSort (· ≤ ·)
  fillLoop sorted (sorted.length + 1) offset

lemma length_filter_mono (l : List Int) (p q : Int → Bool)
    (h : ∀ x, p x = true → q x = true) :
    (l.filter p).length ≤ (l.filter q).length := by
  induction l with
  | nil => simp
  | cons a t ih =>
    cases hp : p a with
    | false => cases hq : q a <;> simp [List.filter_cons, hp, hq] <;> omega
    | true =>
      have hq := h a hp
      simp [List.filter_cons, hp, hq]
      omega

lemma length_filter_succ_lt (l : List Int) (a : Int) (ha : a ∈ l) :
    (l.filter (fun x => decide (a + 1 ≤ x))).length <
      (l.filter (fun x => decide (a ≤ x))).length := by
  induction l with
  | nil => cases ha
  | cons b t ih =>
    have hmono := length_filter_mono t (fun x => decide (a + 1 ≤ x))
      (fun x => decide (a ≤ x)) (by intro x hx; simp at hx ⊢; omega)
    rcases List.mem_cons.mp ha with rfl | hmem
    · have h1 : ¬ (a + 1 ≤ a) := by omega
      have h2 : a ≤ a := le_refl a
      simp only [List.filter_cons, decide_eq_true_eq]
      rw [if_neg h1, if_pos h2]
      simp only [List.length_cons]
      omega
    · have hlt := ih hmem
      simp only [List.filter_cons, decide_eq_true_eq]
      by_cases hpb : a + 1 ≤ b
      · rw [if_pos hpb, if_pos (by omega : a ≤ b)]
        simp only [List.length_cons]
        omega
      · rw [if_neg hpb]
        by_cases hqb : a ≤ b
        · rw [if_pos hqb]
          simp only [List.length_cons]
          omega
        · rw [if_neg hqb]
          omega

lemma fillLoop_spec (numbers : List Int) :
    ∀ (fuel : Nat) (offset : Int),
      (numbers.filter (fun x => decide (offset ≤ x))).length < fuel →
      offset ≤ fillLoop numbers fuel offset ∧
      fillLoop numbers fuel offset ∉ numbers ∧
      ∀ k : Int, offset ≤ k → k < fillLoop numbers fuel offset → k ∈ numbers := by
  intro fuel
  induction fuel with
  | zero => intro offset h; omega
  | succ n ih =>
    intro offset h
    by_cases hin : offset ∈ numbers
    · have heq : fillLoop numbers (n + 1) offset = fillLoop numbers n (offset + 1) := by
        simp only [fillLoop, if_pos hin]
      have hlt := length_filter_succ_lt numbers offset hin
      have hn : (numbers.filter (fun x => decide (offset + 1 ≤ x))).length < n := by
        omega
      obtain ⟨h1, h2, h3⟩ := ih (offset + 1) hn
      rw [heq]
      refine ⟨by omega, h2, ?_⟩
      intro k hk1 hk2
      by_cases hk : k = offset
      · subst hk; exact hin
      · exact h3 k (by omega) hk2
    · have heq : fillLoop numbers (n + 1) offset = offset := by
        simp only [fillLoop, if_neg hin]
      rw [heq]
      exact ⟨le_refl _, hin, fun k hk1 hk2 => absurd hk1 (by omega)⟩

/-- C5: the gap-filling allocator returns the smallest id that is greater
than or equal to the configured minimum (`offset`) and not already in the
in-use list — gaps below the minimum are never filled, gaps at or above
the minimum are filled in ascending order before extending past the
maximum — and it evaluates as the spec states on the four concrete
examples. -/
theorem fill_array_gaps_correct :
    (∀ (numbers : List Int) (offset : Int),
      offset ≤ fill_array_gaps numbers offset ∧
      fill_array_gaps numbers offset ∉ numbers ∧
      ∀ k : Int, offset ≤ k → k < fill_array_gaps numbers offset → k ∈ numbers) ∧
    fill_array_gaps [200, 202, 190, 201, 204] 200 = 203 ∧
    fill_array_gaps [202, 190, 201, 203, 200] 200 = 204 ∧
    fill_array_gaps [202, 190, 201] 200 = 200 ∧
    fill_array_gaps [198, 190, 50] 200 = 200 := by
  refine ⟨?_, by decide, by decide, by decide, by decide⟩
  intro numbers offset
  have hperm := List.perm_insertionSort (α := Int) (· ≤ ·) numbers
  have hfuel :
      ((numbers.insertionSort (· ≤ ·)).filter
        (fun x => decide (offset ≤ x))).length <
      (numbers.insertionSort (· ≤ ·)).length + 1 :=
    Nat.lt_succ_of_le (List.length_filter_le _ _)
  obtain ⟨h1, h2, h3⟩ :=
    fillLoop_spec (numbers.insertionSort (· ≤ ·))
      ((numbers.insertionSort (· ≤ ·)).length + 1) offset hfuel
  refine ⟨h1, fun hmem => h2 (hperm.mem_iff.mpr hmem), ?_⟩
  intro k hk1 hk2
  exact hperm.mem_iff.mp (h3 k hk1 hk2)

/-- Environment for the flattening methods of `group_sync.py`: the
`objectClass` list that the directory returns for a distinguished name
(consumed by `_check_ad_object_type`; its per-filter cache is pure
memoization) and the `member` attribute returned by the `_group_search`
call inside `_flatten_nested_group`. -/
structure FlattenEnv where
  objectClass : String → List String
  member : String → List String

/-- Embedding of `AdLdapGroupSync._check_ad_object_type`: fetch the
`objectClass` attribute of the object and test `object_type in response`. -/
def check_ad_object_type (env : FlattenEnv) (adObject objectType : String) : Bool :=
  (env.objectClass adObject).contains objectType

/-- The strings that `called_groups.extend(ad_object)` appends: Python
`list.extend` iterates its argument, and iterating a `str` yields its
characters one by one, so the list is extended with one-character strings
(not with `ad_object` itself). -/
def extendChars (adObject : String) : List String :=
  adObject.data.map (fun c => Char.toString c)

/-- One iteration of the `for ad_object in group_members:` loop of
`_flatten_nested_group`.  The accumulator carries the shared
`called_groups` list (mutated in place by the source) and the two local
variables `return_set` and `nested_members`; `recur` is the recursive
call at one deeper stack level; `none` models an execution that never
returns. -/
def flattenStep (env : FlattenEnv)
    (recur : List String → List String → Option (List String × List String))
    (acc : Option (List String × List String × List String)) (adObject : String) :
    Option (List String × List String × List String) :=
  match acc with
  | none => none
  | some (calledGroups, returnSet, nestedMembers) =>
    if check_ad_object_type env adObject "user" then
      some (calledGroups, returnSet.insert adObject, nestedMembers)
    else if check_ad_object_type env adObject "group" then
      if adObject ∈ calledGroups then
        some (calledGroups, returnSet, nestedMembers)
      else
        match recur (calledGroups ++ extendChars adObject) (env.member adObject) with
        | none => none
        | some (calledGroups2, result) => some (calledGroups2, returnSet, result)
    else
      some (calledGroups, returnSet, nestedMembers)

/-- Embedding of `AdLdapGroupSync._flatten_nested_group`.  The fuel
argument models the Python call stack: the embedding returns `none` when
the source recursion at that depth never returns, and on inputs where the
source diverges it is `none` for every fuel.  On success it returns the
final contents of `called_groups` together with the result of
`set.union(nested_members, return_set)`. -/
def flatten_nested_group (env : FlattenEnv) :
    Nat → List String → List String → Option (List String × List String)
  | 0, _, _ => none
  | fuel + 1, calledGroups, groupMembers =>
    match groupMembers.foldl (flattenStep env (flatten_nested_group env fuel))
        (some (calledGroups, [], [])) with
    | none => none
    | some (calledGroups2, returnSet, nestedMembers) =>
      some (calledGroups2, nestedMembers ∪ returnSet)

/-- Directory fixture refuting C1's completeness: the starting group `RT`
has two nested groups `G1` and `G2` whose members are the users `u1` and
`u2` respectively.  No cycles, everything resolvable. -/
def envDrop : FlattenEnv :=
  { objectClass := fun s =>
      if s = "G1" ∨ s = "G2" then ["group"]
      else if s = "u1" ∨ s = "u2" then ["user"]
      else []
    member := fun s => if s = "G1" then ["u1"] else if s = "G2" then ["u2"] else [] }

/-- Directory fixture refuting C1's termination: two groups `GA` and `GB`
that are members of each other, reached from a starting group `R0`. -/
def envCyc : FlattenEnv :=
  { objectClass := fun s => if s = "GA" ∨ s = "GB" then ["group"] else []
    member := fun s => if s = "GA" then ["GB"] else if s = "GB" then ["GA"] else [] }

lemma flatten_cyc_none (fuel : Nat) :
    ∀ cg : List String, "GA" ∉ cg → "GB" ∉ cg →
      flatten_nested_group envCyc fuel cg ["GA"] = none ∧
      flatten_nested_group envCyc fuel cg ["GB"] = none := by
  induction fuel with
  | zero => intro cg _ _; exact ⟨rfl, rfl⟩
  | succ n ih =>
    intro cg hga hgb
    have hcgA : "GA" ∉ cg ++ extendChars "GA" := by
      rw [show extendChars "GA" = ["G", "A"] from rfl]
      intro h
      rcases List.mem_append.mp h with h | h
      · exact hga h
      · revert h; decide
    have hcgB : "GB" ∉ cg ++ extendChars "GA" := by
      rw [show extendChars "GA" = ["G", "A"] from rfl]
      intro h
      rcases List.mem_append.mp h with h | h
      · exact hgb h
      · revert h; decide
    have hcgA2 : "GA" ∉ cg ++ extendChars "GB" := by
      rw [show extendChars "GB" = ["G", "B"] from rfl]
      intro h
      rcases List.mem_append.mp h with h | h
      · exact hga h
      · revert h; decide
    have hcgB2 : "GB" ∉ cg ++ extendChars "GB" := by
      rw [show extendChars "GB" = ["G", "B"] from rfl]
      intro h
      rcases List.mem_append.mp h with h | h
      · exact hgb h
      · revert h; decide
    constructor
    · have hrec := (ih (cg ++ extendChars "GA") hcgA hcgB).2
      simp only [flatten_nested_group, List.foldl_cons, List.foldl_nil, flattenStep,
        show check_ad_object_type envCyc "GA" "user" = false from rfl,
        show check_ad_object_type envCyc "GA" "group" = true from rfl,
        Bool.false_eq_true, if_false, if_true, if_neg hga,
        show envCyc.member "GA" = ["GB"] from rfl, hrec]
    · have hrec := (ih (cg ++ extendChars "GB") hcgA2 hcgB2).1
      simp only [flatten_nested_group, List.foldl_cons, List.foldl_nil, flattenStep,
        show check_ad_object_type envCyc "GB" "user" = false from rfl,
        show check_ad_object_type envCyc "GB" "group" = true from rfl,
        Bool.false_eq_true, if_false, if_true, if_neg hgb,
        show envCyc.member "GB" = ["GA"] from rfl, hrec]

/-- C1 fails on the code (code bug).  First conjunct: on the cycle-free
fixture `envDrop`, where the user `u1` is reachable through the
not-yet-visited nested group `G1` (middle conjuncts), flattening returns
only `{u2}` — the assignment `nested_members = self._flatten_nested_group(...)`
overwrites the members collected from the earlier sibling nested group,
dropping `u1`.  Last conjunct: on the two-group cycle `GA ↔ GB` the
recursion never returns at any stack depth, because
`called_groups.extend(ad_object)` appends the characters of the DN rather
than the DN itself, so the visited-guard never matches. -/
theorem flatten_nested_group_bug :
    flatten_nested_group envDrop 5 ["RT"] ["G1", "G2"] =
      some (["RT", "G", "1", "G", "2"], ["u2"]) ∧
    check_ad_object_type envDrop "G1" "group" = true ∧
    envDrop.member "G1" = ["u1"] ∧
    check_ad_object_type envDrop "u1" "user" = true ∧
    ("G1" : String) ∉ (["RT"] : List String) ∧
    (∀ fuel : Nat, flatten_nested_group envCyc fuel ["R0"] ["GA"] = none) := by
  refine ⟨by decide, rfl, rfl, rfl, by decide, ?_⟩
  intro fuel
  exact (flatten_cyc_none fuel ["R0"] (by decide) (by decide)).1

/-- The user record produced by `_get_account_data` / `_lookup_ad_user`:
`{"sAMAccountName": ..., "country_code": ..., "account_active": ...}`.
`country_code` is an `Option` because the source uses
`full_output.get("c", None)` and the sentinel carries `None`. -/
structure AccountData where
  sAMAccountName : String
  country_code : Option String
  account_active : Bool
deriving DecidableEq

/-- The fixed dictionary of known negative values returned on any
resolution failure. -/
def unknownAccount : AccountData :=
  { sAMAccountName := "", country_code := none, account_active := false }

/-- The primary-directory (MS AD) attributes that `_get_account_data`
reads from its search result, keyed in the environment by the user DN the
source searches for. -/
structure PrimaryRecord where
  sAMAccountName : String
  userAccountControl : Int
  c : Option String
deriving DecidableEq

/-- The mutable attributes of `AdLdapGroupSync` threaded through the run:
`run_status` and `user_lookup_cache` are instance state in the source;
`warnings` counts `logger.warning` calls; `failures` counts executions of
`self.run_status = False` (each such site is one recoverable failure). -/
structure SyncState where
  run_status : Bool
  warnings : Nat
  failures : Nat
  user_lookup_cache : List (String × AccountData)
deriving DecidableEq

/-- Record one recoverable failure: the embedding of a
`self.run_status = False` site. -/
def recordFailure (s : SyncState) : SyncState :=
  { s with run_status := false, failures := s.failures + 1 }

/-- Record one `logger.warning` call. -/
def warn (s : SyncState) : SyncState :=
  { s with warnings := s.warnings + 1 }

/-- The group membership mutation actions used by `_process_operations`
(`MODIFY_ADD` for additions, `MODIFY_DELETE` for deletions). -/
inductive LdapAction where
  | modifyAdd
  | modifyDelete
deriving DecidableEq

/-- The numeric thresholds of `config["settings"]` read by the safety
gate. -/
structure Settings where
  total_change_threshold : Nat
  deletions_change_threshold : Nat
  additions_change_threshold : Nat
  small_group_blind_update : Nat
deriving DecidableEq

/-- Environment of a group-sync run: directory responses and
configuration.  `primary` models `_user_search("ad", cn, base)` keyed by
the user DN; `secondaryCount` models `len(_user_search("openldap",
f"uid=X"))`; `modifyOk`, `gidWriteOk` and `addOk` model the result codes
of the three mutating directory calls; `gidInUse` and
`min_member_number` model the data behind
`utilities.get_next_gid_uid_number`. -/
structure Env where
  primary : String → Option PrimaryRecord
  secondaryCount : String → Nat
  exceptions : String → Option String
  country_control : List (String × List String)
  settings : Settings
  universal_override : Bool
  group_override : List String
  group_base : String
  modifyOk : String → LdapAction → List String → Bool
  gidWriteOk : String → Int → Bool
  addOk : String → Bool
  gidInUse : List Int
  min_member_number : Int

/-- Python `str.lower()`, modelled character-wise (the login ids it is
applied to are ASCII). -/
def pyLower (s : String) : String :=
  String.mk (s.data.map Char.toLower)

/-- Embedding of `_get_account_data`: fetch the user's attributes from MS
AD; if the search fails (`except Exception`), log a warning, set
`run_status = False` and return the fixed negative record.  The account
is active unless `userAccountControl` equals one of the two disabled
sentinel codes 514 / 66050 (exact equality, not a bitmask), and the
login id is lower-cased. -/
def get_account_data (env : Env) (ad_user : String) (s : SyncState) :
    AccountData × SyncState :=
  match env.primary ad_user with
  | some r =>
    ({ sAMAccountName := pyLower r.sAMAccountName,
       country_code := r.c,
       account_active :=
         decide (r.userAccountControl ≠ 514 ∧ r.userAccountControl ≠ 66050) }, s)
  | none => (unknownAccount, recordFailure (warn s))

/-- Embedding of `_lookup_ad_user`: consult the cache, fetch account
data, then resolve through the exception table or directly against
OpenLDAP; all failure paths fall through to the fixed unknown record. -/
def lookup_ad_user (env : Env) (ad_user : String) (s : SyncState) :
    AccountData × SyncState :=
  match s.user_lookup_cache.lookup ad_user with
  | some cached => (cached, s)
  | none =>
    let p := get_account_data env ad_user s
    let account_data := p.1
    let s1 := p.2
    match env.exceptions account_data.sAMAccountName with
    | some target =>
      if env.secondaryCount target = 1 then
        let account_data2 := { account_data with sAMAccountName := target }
        (account_data2,
          { s1 with user_lookup_cache := (ad_user, account_data2) :: s1.user_lookup_cache })
      else if env.secondaryCount target = 0 then
        if target ≠ "NONE" then (unknownAccount, recordFailure (warn s1))
        else (unknownAccount, s1)
      else (unknownAccount, recordFailure (warn s1))
    | none =>
      if env.secondaryCount account_data.sAMAccountName = 1 then
        (account_data,
          { s1 with user_lookup_cache := (ad_user, account_data) :: s1.user_lookup_cache })
      else (unknownAccount, recordFailure (warn s1))

/-- Embedding of `_check_country_control`: an empty table (`if
country_control:`) or an unlisted group restricts nobody; for a listed
group the user passes iff the country code is the empty string or occurs
in the group's allowed list (`None in list` is `False` in Python). -/
def check_country_control (env : Env) (account_data : AccountData)
    (valid_sync_group : String) : Bool :=
  match env.country_control with
  | [] => true
  | _ :: _ =>
    match env.country_control.lookup valid_sync_group with
    | none => true
    | some allowed =>
      if account_data.country_code = some "" then true
      else
        match account_data.country_code with
        | some c => allowed.contains c
        | none => false

/-- One group of `_create_group_dictionary`'s output:
`{"id": ..., "dn": ..., "names": ..., "server_type": ...}` (the constant
`server_type` tag is omitted). -/
structure GroupRec where
  id : Int
  dn : String
  names : List String
deriving DecidableEq

/-- A group dictionary, in Python insertion order. -/
abbrev GroupDict := List (String × GroupRec)

/-- Subscript access `dict[group]`; every call site in the source
guarantees the key is present (`valid_sync_groups` is an intersection of
the two key sets). -/
def dictFind (d : GroupDict) (g : String) : GroupRec :=
  (d.lookup g).getD { id := -1, dn := "", names := [] }

/-- The `for source_member in source_dict[...]["names"]` loop of
`_find_user_in_source_dict`: every source member is resolved (no early
exit) and `found` latches to `True` on an active match. -/
def findUserLoop (env : Env) (destination_member : String) :
    List String → Bool → SyncState → Bool × SyncState
  | [], found, s => (found, s)
  | source_member :: rest, found, s =>
    let p := lookup_ad_user env source_member s
    let found2 :=
      if destination_member = p.1.sAMAccountName ∧ p.1.account_active = true then true
      else found
    findUserLoop env destination_member rest found2 p.2

/-- Embedding of `_find_user_in_source_dict`. -/
def find_user_in_source_dict (env : Env) (source_dict : GroupDict)
    (destination_member : String) (valid_sync_group : String) (s : SyncState) :
    Bool × SyncState :=
  findUserLoop env destination_member
    (dictFind source_dict valid_sync_group).names false s

/-- The `for source_member in ...` loop of `_generate_additions`: a
resolved source member is appended iff its resolved id is not already a
destination member, is non-empty, the account is active, and country
control passes. -/
def additionsLoop (env : Env) (destination_names : List String)
    (valid_sync_group : String) :
    List String → SyncState → List String × SyncState
  | [], s => ([], s)
  | source_member :: rest, s =>
    let p := lookup_ad_user env source_member s
    let q := additionsLoop env destination_names valid_sync_group rest p.2
    if p.1.sAMAccountName ∉ destination_names ∧
        p.1.sAMAccountName ≠ "" ∧
        p.1.account_active = true ∧
        check_country_control env p.1 valid_sync_group = true then
      (p.1.sAMAccountName :: q.1, q.2)
    else q

/-- Embedding of `_generate_additions`. -/
def generate_additions (env : Env) (source_dict destination_dict : GroupDict)
    (valid_sync_group : String) (s : SyncState) : List String × SyncState :=
  additionsLoop env (dictFind destination_dict valid_sync_group).names
    valid_sync_group (dictFind source_dict valid_sync_group).names s

/-- The `for destination_member in ...` loop of `_generate_deletions`: a
destination member is appended iff no resolved, active source member
matches it. -/
def deletionsLoop (env : Env) (source_dict : GroupDict) (valid_sync_group : String) :
    List String → SyncState → List String × SyncState
  | [], s => ([], s)
  | destination_member :: rest, s =>
    let p := find_user_in_source_dict env source_dict destination_member
      valid_sync_group s
    let q := deletionsLoop env source_dict valid_sync_group rest p.2
    if p.1 = false then (destination_member :: q.1, q.2) else q

/-- Embedding of `_generate_deletions`. -/
def generate_deletions (env : Env) (destination_dict source_dict : GroupDict)
    (valid_sync_group : String) (s : SyncState) : List String × SyncState :=
  deletionsLoop env source_dict valid_sync_group
    (dictFind destination_dict valid_sync_group).names s

/-- The per-group entry of `destination_operations`: proposed additions,
proposed deletions and the override flag (`override_required` is written
after the change-percent computation has run; that computation reads only
the `additions` and `deletions` keys). -/
structure GroupOps where
  additions : List String
  deletions : List String
  override_required : Bool
deriving DecidableEq

/-- The dictionary returned by `_determine_change_percent`. -/
structure ChangeData where
  original_len : Nat
  deletions_len : Nat
  additions_len : Nat
  total_change_size : Nat
  total_change_percent : Nat
  deletions_change_percent : Nat
  additions_change_percent : Nat
deriving DecidableEq

/-- Exact comparison `2^e * den ≤ num` for a possibly negative exponent,
carried out on integers. -/
def le2pow (e : Int) (num den : Nat) : Bool :=
  if 0 ≤ e then 2 ^ e.toNat * den ≤ num else den ≤ num * 2 ^ (-e).toNat

/-- Climb the exponent while `2^(e+1) ≤ num/den` (fuel-bounded; the fuel
covers the whole binary64 exponent range). -/
def expUp (num den : Nat) : Nat → Int → Int
  | 0, e => e
  | fuel + 1, e => if le2pow (e + 1) num den then expUp num den fuel (e + 1) else e

/-- Descend the exponent until `2^e ≤ num/den` (fuel-bounded). -/
def expDown (num den : Nat) : Nat → Int → Int
  | 0, e => e
  | fuel + 1, e => if le2pow e num den then e else expDown num den fuel (e - 1)

/-- The binade exponent of the positive rational `num/den`: the `e` with
`2^e ≤ num/den < 2^(e+1)` (for values inside the binary64 normal range,
which all values in this program inhabit). -/
def floatExpOf (num den : Nat) : Int :=
  expDown num den 1200 (expUp num den 1200 0)

/-- IEEE-754 binary64 rounding (round to nearest, ties to even) of the
positive rational `num/den`: the value is snapped to the nearest multiple
of the unit in the last place `2^(e-52)` of its binade, returned as a
dyadic pair `(m, u)` denoting `m * 2^u`.  A tie (`2*r = scaledDen`) goes
to the even significand.  Subnormals and overflow are not modelled: the
program's values (list-length ratios scaled by 100) are far inside the
normal range. -/
def roundFloat (num den : Nat) : Nat × Int :=
  let e := floatExpOf num den
  let u := e - 52
  let scaledNum := if 0 ≤ u then num else num * 2 ^ (-u).toNat
  let scaledDen := if 0 ≤ u then den * 2 ^ u.toNat else den
  let q := scaledNum / scaledDen
  let r := scaledNum % scaledDen
  let m :=
    if 2 * r < scaledDen then q
    else if scaledDen < 2 * r then q + 1
    else if q % 2 = 0 then q else q + 1
  (m, u)

/-- Binary64 multiplication of the dyadic float `m * 2^u` by the exactly
representable constant `100`: the exact product, rounded again to 53
bits. -/
def floatMul100 (m : Nat) (u : Int) : Nat × Int :=
  if 0 ≤ u then roundFloat (m * 100 * 2 ^ u.toNat) 1
  else roundFloat (m * 100) (2 ^ (-u).toNat)

/-- Python `int(x)` on a nonnegative dyadic float `m * 2^u`: truncation
toward zero, i.e. the floor. -/
def truncFloat (m : Nat) (u : Int) : Nat :=
  if 0 ≤ u then m * 2 ^ u.toNat else m / 2 ^ (-u).toNat

/-- Python `int(count / n * 100)` on nonnegative ints (`n > 0`): the true
division `count / n` is the correctly rounded binary64 quotient, the
multiplication by the exactly representable `100` rounds the product
again, and `int()` truncates toward zero.  `0 / n` is exactly `0.0` and
`0.0 * 100` is `0.0`, so the zero case returns directly (the exponent
search above expects a positive value). -/
def pyIntDivMul100 (count n : Nat) : Nat :=
  if count = 0 then 0
  else
    let d := roundFloat count n
    let p := floatMul100 d.1 d.2
    truncFloat p.1 p.2

/-- Embedding of `_determine_change_percent`.  Python's `int(x / y * 100)`
is two binary64 operations followed by truncation toward zero, modelled
exactly by `pyIntDivMul100` (the `abs` around the total is a no-op on the
nonnegative value). -/
def determine_change_percent (destination_list : List String)
    (destination_operations : GroupOps) : ChangeData :=
  let original_len := max destination_list.length 1
  let deletions_len := destination_operations.deletions.length
  let additions_len := destination_operations.additions.length
  let total_change_size := additions_len + deletions_len
  { original_len := original_len
    deletions_len := deletions_len
    additions_len := additions_len
    total_change_size := total_change_size
    total_change_percent := pyIntDivMul100 total_change_size original_len
    deletions_change_percent := pyIntDivMul100 deletions_len original_len
    additions_change_percent := pyIntDivMul100 additions_len original_len }

/-- Embedding of `_check_override_required`: `override_required` starts
`False`, each of the three threshold breaches sets it `True`, and the
small-group check runs last and forces it back to `False`. -/
def check_override_required (env : Env) (destination_list : List String)
    (destination_operations : GroupOps) : Bool :=
  let change_data := determine_change_percent destination_list destination_operations
  let override_required := false
  let override_required :=
    if change_data.total_change_percent > env.settings.total_change_threshold then
      true
    else override_required
  let override_required :=
    if change_data.deletions_change_percent > env.settings.deletions_change_threshold then
      true
    else override_required
  let override_required :=
    if change_data.additions_change_percent > env.settings.additions_change_threshold then
      true
    else override_required
  if change_data.original_len < env.settings.small_group_blind_update ∧
      override_required = true then
    false
  else override_required

/-- Embedding of `_build_sync_group_list`: iterate the first dictionary
in order; a group is appended iff it also exists in the second dictionary
and the two ids compare equal. -/
def build_sync_group_list : GroupDict → GroupDict → List String
  | [], _ => []
  | p :: rest, second_group_dict =>
    match second_group_dict.lookup p.1 with
    | some g2 =>
      if p.2.id = g2.id then p.1 :: build_sync_group_list rest second_group_dict
      else build_sync_group_list rest second_group_dict
    | none => build_sync_group_list rest second_group_dict

set_option maxRecDepth 8000 in
/-- Counterexample to C3 as stated: for a destination list of 100
members and 29 deletions the source computes
`int(29 / 100 * 100) = int(28.999999999999996) = 28` in binary64
arithmetic, while the claimed formula
`floor(deletions_len / original_len * 100)` gives `29` (second
conjunct). -/
theorem determine_change_percent_counterexample :
    (determine_change_percent (List.replicate 100 "member")
      { additions := [], deletions := List.replicate 29 "user",
        override_required := false }).deletions_change_percent = 28 ∧
    (List.replicate 29 "user").length * 100 /
      max (List.replicate 100 "member").length 1 = 29 :=
  ⟨by decide, by decide⟩

/-- C3 (amended): the change-percent computation uses
`original_len = max(len(destination_list), 1)` and each percentage is the
truncation toward zero of the binary64 evaluation of
`count / original_len * 100` (for the total, of
`|additions_len + deletions_len|`), which can fall below the exact floor;
on the spec's concrete example (empty destination, 5 additions, 3
deletions — where division by 1 and the small products are float-exact)
it yields `original_len = 1`, `total = 800`, `deletions = 300`,
`additions = 500`. -/
theorem determine_change_percent_float :
    (∀ (destination_list : List String) (ops : GroupOps),
      (determine_change_percent destination_list ops).original_len =
        max destination_list.length 1 ∧
      (determine_change_percent destination_list ops).total_change_percent =
        pyIntDivMul100 (ops.additions.length + ops.deletions.length)
          (max destination_list.length 1) ∧
      (determine_change_percent destination_list ops).deletions_change_percent =
        pyIntDivMul100 ops.deletions.length (max destination_list.length 1) ∧
      (determine_change_percent destination_list ops).additions_change_percent =
        pyIntDivMul100 ops.additions.length (max destination_list.length 1)) ∧
    determine_change_percent []
        { additions := ["a1", "a2", "a3", "a4", "a5"],
          deletions := ["d1", "d2", "d3"], override_required := false } =
      { original_len := 1, deletions_len := 3, additions_len := 5,
        total_change_size := 8, total_change_percent := 800,
        deletions_change_percent := 300, additions_change_percent := 500 } := by
  exact ⟨fun l ops => ⟨rfl, rfl, rfl, rfl⟩, by decide⟩

lemma if_and_true_false (c : Prop) [Decidable c] (b : Bool) (hc : c) :
    (if c ∧ b = true then false else b) = false := by
  cases b
  · simp
  · simp [hc]

/-- C4: whenever the original member count floored at 1 is strictly below
the configured `small_group_blind_update` floor, the override check
returns `False`, no matter the thresholds or the size of the change set —
the small-group exception is evaluated last and wins. -/
theorem check_override_required_small_group (env : Env)
    (destination_list : List String) (ops : GroupOps)
    (h : max destination_list.length 1 < env.settings.small_group_blind_update) :
    check_override_required env destination_list ops = false := by
  simp only [check_override_required]
  exact if_and_true_false _ _ h

/-- A concrete environment for the closed witness theorems. -/
def envW : Env :=
  { primary := fun u =>
      if u = "CN=John Doe,OU=Users,DC=example,DC=com" then
        some { sAMAccountName := "JohnD", userAccountControl := 512, c := some "GB" }
      else if u = "CN=Jane Doe,OU=Users,DC=example,DC=com" then
        some { sAMAccountName := "JaneD", userAccountControl := 512, c := some "GB" }
      else none
    secondaryCount := fun u => if u = "johnd" then 1 else 0
    exceptions := fun u => if u = "janed" then some "NONE" else none
    country_control := [("ctrl_group", ["GB"])]
    settings := { total_change_threshold := 10, deletions_change_threshold := 10,
                  additions_change_threshold := 10, small_group_blind_update := 5 }
    universal_override := false
    group_override := []
    group_base := "ou=Group,dc=example,dc=com"
    modifyOk := fun _ _ _ => true
    gidWriteOk := fun _ _ => true
    addOk := fun _ => true
    gidInUse := [0]
    min_member_number := 200 }

/-- Witness for C4: a group of 1 member (below the floor of 5) with 3
proposed additions and 1 proposed deletion — percentages 300/100/300 all
breach the thresholds of 10, yet no override is required. -/
theorem check_override_required_small_group_witness :
    max ([] : List String).length 1 < envW.settings.small_group_blind_update ∧
    check_override_required envW []
      { additions := ["a", "b", "c"], deletions := ["d"],
        override_required := false } = false :=
  ⟨by decide, check_override_required_small_group envW []
    { additions := ["a", "b", "c"], deletions := ["d"], override_required := false }
    (by decide)⟩

lemma mem_build_sync_group_list {second : GroupDict} :
    ∀ {first : GroupDict} {g : String}, g ∈ build_sync_group_list first second →
      g ∈ first.map Prod.fst := by
  intro first
  induction first with
  | nil => intro g h; cases h
  | cons p rest ih =>
    intro g h
    rcases hl : second.lookup p.1 with _ | g2 <;>
      simp only [build_sync_group_list, hl] at h
    · exact List.mem_cons_of_mem _ (ih h)
    · by_cases hid : p.2.id = g2.id
      · rw [if_pos hid] at h
        rcases List.mem_cons.mp h with rfl | h2
        · exact List.mem_cons_self _ _
        · exact List.mem_cons_of_mem _ (ih h2)
      · rw [if_neg hid] at h
        exact List.mem_cons_of_mem _ (ih h)

/-- C6: a group name is in the valid-sync-group list iff it is a key of
both group dictionaries and the two groups carry exactly the same numeric
id (the first dictionary having Python-dict semantics, i.e. no duplicate
keys). -/
theorem build_sync_group_list_correct (first second : GroupDict) (g : String)
    (hnodup : (first.map Prod.fst).Nodup) :
    g ∈ build_sync_group_list first second ↔
      ∃ gr1 gr2, first.lookup g = some gr1 ∧ second.lookup g = some gr2 ∧
        gr1.id = gr2.id := by
  induction first with
  | nil => simp [build_sync_group_list]
  | cons p rest ih =>
    obtain ⟨k, v⟩ := p
    simp only [List.map_cons, List.nodup_cons] at hnodup
    obtain ⟨hk, hrest⟩ := hnodup
    by_cases hg : g = k
    · subst hg
      have hlk : List.lookup g ((g, v) :: rest) = some v := by simp [List.lookup]
      rcases hl : second.lookup g with _ | g2
      · simp only [build_sync_group_list, hl]
        constructor
        · intro hmem
          exact absurd (mem_build_sync_group_list hmem) hk
        · rintro ⟨gr1, gr2, -, h2, -⟩
          simp at h2
      · by_cases hid : v.id = g2.id
        · simp only [build_sync_group_list, hl, if_pos hid]
          constructor
          · intro _
            exact ⟨v, g2, hlk, rfl, hid⟩
          · intro _
            exact List.mem_cons_self _ _
        · simp only [build_sync_group_list, hl, if_neg hid]
          constructor
          · intro hmem
            exact absurd (mem_build_sync_group_list hmem) hk
          · rintro ⟨gr1, gr2, h1, h2, hideq⟩
            rw [hlk] at h1
            injection h1 with h1
            injection h2 with h2
            subst h1
            subst h2
            exact absurd hideq hid
    · have hbeq : (g == k) = false := beq_eq_false_iff_ne.mpr hg
      have hlk : List.lookup g ((k, v) :: rest) = List.lookup g rest := by
        simp [List.lookup, hbeq]
      have ihr := ih hrest
      rcases hl : second.lookup k with _ | g2
      · simp only [build_sync_group_list, hl, hlk]
        exact ihr
      · by_cases hid : v.id = g2.id
        · simp only [build_sync_group_list, hl, if_pos hid, hlk]
          rw [← ihr]
          simp [List.mem_cons, hg]
        · simp only [build_sync_group_list, hl, if_neg hid, hlk]
          exact ihr

/-- Witness for C6 at concrete dictionaries: `gA` exists in both with id 1
on both sides, so it is in the list; `gB` exists in both with ids 2 ≠ 3
and indeed no pair of equal ids can be exhibited for it. -/
theorem build_sync_group_list_correct_witness :
    ((([("gA", ({ id := 1, dn := "dnA", names := [] } : GroupRec)),
        ("gB", ({ id := 2, dn := "dnB", names := [] } : GroupRec))] : GroupDict).map
          Prod.fst).Nodup) ∧
    (("gA" ∈ build_sync_group_list
        [("gA", { id := 1, dn := "dnA", names := [] }),
         ("gB", { id := 2, dn := "dnB", names := [] })]
        [("gA", { id := 1, dn := "x", names := [] }),
         ("gB", { id := 3, dn := "y", names := [] })]) ↔
      ∃ gr1 gr2,
        List.lookup "gA"
          ([("gA", { id := 1, dn := "dnA", names := [] }),
            ("gB", { id := 2, dn := "dnB", names := [] })] : GroupDict) = some gr1 ∧
        List.lookup "gA"
          ([("gA", { id := 1, dn := "x", names := [] }),
            ("gB", { id := 3, dn := "y", names := [] })] : GroupDict) = some gr2 ∧
        gr1.id = gr2.id) :=
  ⟨by decide,
    build_sync_group_list_correct
      [("gA", { id := 1, dn := "dnA", names := [] }),
       ("gB", { id := 2, dn := "dnB", names := [] })]
      [("gA", { id := 1, dn := "x", names := [] }),
       ("gB", { id := 3, dn := "y", names := [] })]
      "gA" (by decide)⟩

/-- C7: for a group listed in the country-control table a candidate is
allowed iff their country code is the empty string or occurs in the
group's allowed list; an unlisted group (in particular any group when the
table is empty) restricts nobody; an empty country code is never
blocked. -/
theorem check_country_control_correct (env : Env) (account_data : AccountData)
    (g : String) :
    (check_country_control env account_data g = true ↔
      (env.country_control.lookup g = none ∨
       account_data.country_code = some "" ∨
       (∃ allowed c, env.country_control.lookup g = some allowed ∧
         account_data.country_code = some c ∧ c ∈ allowed))) ∧
    (account_data.country_code = some "" →
      check_country_control env account_data g = true) ∧
    (env.country_control = [] → check_country_control env account_data g = true) := by
  have hiff : check_country_control env account_data g = true ↔
      (env.country_control.lookup g = none ∨
       account_data.country_code = some "" ∨
       (∃ allowed c, env.country_control.lookup g = some allowed ∧
         account_data.country_code = some c ∧ c ∈ allowed)) := by
    rcases htab : env.country_control with _ | ⟨q, tab⟩
    · simp [check_country_control, htab, List.lookup]
    · simp only [check_country_control, htab]
      rcases hl : List.lookup g (q :: tab) with _ | allowed
      · simp
      · by_cases hcc : account_data.country_code = some ""
        · simp [hcc]
        · rcases hc : account_data.country_code with _ | c
          · simp
          · have hc' : c ≠ "" := by
              intro h
              rw [h] at hc
              exact hcc hc
            simp [hc']
  refine ⟨hiff, ?_, ?_⟩
  · intro hcc
    exact hiff.mpr (Or.inr (Or.inl hcc))
  · intro htab
    refine hiff.mpr (Or.inl ?_)
    rw [htab]
    rfl

/-- The state at the start of a run: the class attribute
`run_status: bool = True`, no warnings, no failures, an empty user
lookup cache. -/
def initialSyncState : SyncState :=
  { run_status := true, warnings := 0, failures := 0, user_lookup_cache := [] }

/-- C8: on a cache miss, identity resolution returns exactly the fixed
unknown record on every resolution failure — user absent from the primary
directory, exception-table target with zero or more than one secondary
match, or direct lookup with zero or more than one secondary match — and
in the non-exception path a failed lookup additionally logs one warning
and marks the run failed.  (The embedding is a total function, so the
source's "never raises" is the totality of `lookup_ad_user`.  The side
condition that the exception table has no entry for the empty login id
reflects that its keys are real sAMAccountNames.) -/
theorem lookup_ad_user_failure_sentinel (env : Env) (ad_user : String)
    (s : SyncState)
    (hcache : s.user_lookup_cache.lookup ad_user = none)
    (hempty : env.exceptions "" = none) :
    (env.primary ad_user = none →
      (lookup_ad_user env ad_user s).1 = unknownAccount) ∧
    (∀ r target, env.primary ad_user = some r →
      env.exceptions (pyLower r.sAMAccountName) = some target →
      env.secondaryCount target ≠ 1 →
      (lookup_ad_user env ad_user s).1 = unknownAccount) ∧
    (∀ r, env.primary ad_user = some r →
      env.exceptions (pyLower r.sAMAccountName) = none →
      env.secondaryCount (pyLower r.sAMAccountName) ≠ 1 →
      (lookup_ad_user env ad_user s).1 = unknownAccount ∧
      (lookup_ad_user env ad_user s).2.run_status = false ∧
      (lookup_ad_user env ad_user s).2.warnings = s.warnings + 1) := by
  refine ⟨?_, ?_, ?_⟩
  · intro hprim
    have hemp2 : env.exceptions (unknownAccount.sAMAccountName) = none := hempty
    simp only [lookup_ad_user, hcache, get_account_data, hprim, hemp2]
    by_cases hc1 : env.secondaryCount unknownAccount.sAMAccountName = 1
    · rw [if_pos hc1]
    · rw [if_neg hc1]
  · intro r target hprim hexc hne
    simp only [lookup_ad_user, hcache, get_account_data, hprim, hexc]
    rw [if_neg hne]
    by_cases h0 : env.secondaryCount target = 0
    · rw [if_pos h0]
      split <;> rfl
    · rw [if_neg h0]
  · intro r hprim hexc hne
    simp only [lookup_ad_user, hcache, get_account_data, hprim, hexc]
    rw [if_neg hne]
    exact ⟨rfl, rfl, rfl⟩

/-- Witness for C8 at a user DN absent from the concrete primary
directory. -/
theorem lookup_ad_user_failure_sentinel_witness :
    (initialSyncState.user_lookup_cache.lookup "CN=Ghost,DC=example" = none) ∧
    (envW.exceptions "" = none) ∧
    ((envW.primary "CN=Ghost,DC=example" = none →
      (lookup_ad_user envW "CN=Ghost,DC=example" initialSyncState).1 =
        unknownAccount) ∧
    (∀ r target, envW.primary "CN=Ghost,DC=example" = some r →
      envW.exceptions (pyLower r.sAMAccountName) = some target →
      envW.secondaryCount target ≠ 1 →
      (lookup_ad_user envW "CN=Ghost,DC=example" initialSyncState).1 =
        unknownAccount) ∧
    (∀ r, envW.primary "CN=Ghost,DC=example" = some r →
      envW.exceptions (pyLower r.sAMAccountName) = none →
      envW.secondaryCount (pyLower r.sAMAccountName) ≠ 1 →
      (lookup_ad_user envW "CN=Ghost,DC=example" initialSyncState).1 =
        unknownAccount ∧
      (lookup_ad_user envW "CN=Ghost,DC=example" initialSyncState).2.run_status =
        false ∧
      (lookup_ad_user envW "CN=Ghost,DC=example" initialSyncState).2.warnings =
        initialSyncState.warnings + 1)) :=
  ⟨rfl, by decide,
    lookup_ad_user_failure_sentinel envW "CN=Ghost,DC=example" initialSyncState
      rfl (by decide)⟩

lemma additionsLoop_no_empty (env : Env) (destination_names : List String)
    (g : String) :
    ∀ (members : List String) (s : SyncState),
      "" ∉ (additionsLoop env destination_names g members s).1 := by
  intro members
  induction members with
  | nil =>
    intro s h
    simp [additionsLoop] at h
  | cons m rest ih =>
    intro s
    simp only [additionsLoop]
    split
    case isTrue hcond =>
      intro h
      rcases List.mem_cons.mp h with heq | htail
      · exact hcond.2.1 heq.symm
      · exact ih _ htail
    case isFalse hcond =>
      exact ih _

lemma deletionsLoop_subset (env : Env) (source_dict : GroupDict) (g : String) :
    ∀ (members : List String) (s : SyncState) (x : String),
      x ∈ (deletionsLoop env source_dict g members s).1 → x ∈ members := by
  intro members
  induction members with
  | nil =>
    intro s x h
    simp [deletionsLoop] at h
  | cons m rest ih =>
    intro s x
    simp only [deletionsLoop]
    split
    · intro h
      rcases List.mem_cons.mp h with heq | htail
      · exact heq ▸ List.mem_cons_self _ _
      · exact List.mem_cons_of_mem _ (ih _ _ htail)
    · intro h
      exact List.mem_cons_of_mem _ (ih _ _ h)

/-- C2: a user whose primary login id is mapped to the sentinel `"NONE"`
in the exception table, the mapped target matching zero secondary
entries, is resolved to the unknown record with the state — run status,
warning count, failure count, cache — completely untouched (skipped
silently); the additions of any group never contain the empty resolved
id, which is the only identity the code ever associates with such a user,
so the user is never an addition candidate; and deletion candidates are
always drawn from the destination member list, in which a user matching
zero secondary entries does not occur, so the user is never a deletion
candidate. -/
theorem exception_none_sentinel (env : Env) (ad_user : String)
    (r : PrimaryRecord) (s : SyncState)
    (hcache : s.user_lookup_cache.lookup ad_user = none)
    (hprim : env.primary ad_user = some r)
    (hexc : env.exceptions (pyLower r.sAMAccountName) = some "NONE")
    (hzero : env.secondaryCount "NONE" = 0) :
    lookup_ad_user env ad_user s = (unknownAccount, s) ∧
    (∀ (source_dict destination_dict : GroupDict) (g : String) (s' : SyncState),
      "" ∉ (generate_additions env source_dict destination_dict g s').1) ∧
    (∀ (destination_dict source_dict : GroupDict) (g : String) (s' : SyncState)
        (x : String), x ∉ (dictFind destination_dict g).names →
      x ∉ (generate_deletions env destination_dict source_dict g s').1) := by
  refine ⟨?_, ?_, ?_⟩
  · simp only [lookup_ad_user, hcache, get_account_data, hprim, hexc]
    rw [if_neg (by omega : ¬ env.secondaryCount "NONE" = 1),
      if_pos hzero, if_neg (by simp : ¬ ("NONE" : String) ≠ "NONE")]
  · intro source_dict destination_dict g s'
    exact additionsLoop_no_empty env _ g _ s'
  · intro destination_dict source_dict g s' x hx hmem
    exact hx (deletionsLoop_subset env source_dict g _ s' x hmem)

/-- The primary record of the exception-excluded user in `envW`. -/
def janeRecord : PrimaryRecord :=
  { sAMAccountName := "JaneD", userAccountControl := 512, c := some "GB" }

/-- Witness for C2: in the concrete environment `envW`, Jane Doe's login
`janed` is mapped to `"NONE"` and no OpenLDAP entry matches `uid=NONE`. -/
theorem exception_none_sentinel_witness :
    (initialSyncState.user_lookup_cache.lookup
      "CN=Jane Doe,OU=Users,DC=example,DC=com" = none) ∧
    (envW.primary "CN=Jane Doe,OU=Users,DC=example,DC=com" = some janeRecord) ∧
    (envW.exceptions (pyLower janeRecord.sAMAccountName) = some "NONE") ∧
    (envW.secondaryCount "NONE" = 0) ∧
    (lookup_ad_user envW "CN=Jane Doe,OU=Users,DC=example,DC=com"
        initialSyncState = (unknownAccount, initialSyncState) ∧
    (∀ (source_dict destination_dict : GroupDict) (g : String) (s' : SyncState),
      "" ∉ (generate_additions envW source_dict destination_dict g s').1) ∧
    (∀ (destination_dict source_dict : GroupDict) (g : String) (s' : SyncState)
        (x : String), x ∉ (dictFind destination_dict g).names →
      x ∉ (generate_deletions envW destination_dict source_dict g s').1)) :=
  ⟨rfl, by decide, by decide, by decide,
    exception_none_sentinel envW "CN=Jane Doe,OU=Users,DC=example,DC=com"
      janeRecord initialSyncState rfl (by decide) (by decide) (by decide)⟩

/-- A group membership mutation issued to the secondary directory:
`connection.modify(group_dn, {members_attr: [(action, user_list)]})`. -/
structure ModifyCall where
  dn : String
  action : LdapAction
  users : List String
deriving DecidableEq

/-- Embedding of `_modify_group`: only a non-empty `user_list` (`if
user_list:`) triggers a directory modification, whose non-success result
code marks the run failed; an empty list only logs at debug level.  The
returned list records the modify calls issued. -/
def modify_group (env : Env) (group_dn : String) (action : LdapAction)
    (user_list : List String) (s : SyncState) : List ModifyCall × SyncState :=
  if user_list ≠ [] then
    if env.modifyOk group_dn action user_list then
      ([{ dn := group_dn, action := action, users := user_list }], s)
    else
      ([{ dn := group_dn, action := action, users := user_list }], recordFailure s)
  else
    ([], s)

/-- Embedding of `_check_process_changes`: changes go ahead iff the group
has any additions or deletions, and either no override is required or one
of the two override levers (`universal_override`, membership in
`group_override`) is engaged; a required-but-absent override logs four
warnings and marks the run failed. -/
def check_process_changes (env : Env) (group : String) (ops : GroupOps)
    (s : SyncState) : Bool × SyncState :=
  if ops.additions.length > 0 ∨ ops.deletions.length > 0 then
    if ops.override_required then
      if env.universal_override ∨ group ∈ env.group_override then
        (true, s)
      else
        (false, recordFailure { s with warnings := s.warnings + 4 })
    else (true, s)
  else (false, s)

/-- The `for group in group_operations:` loop of `_process_operations`:
for each group whose changes pass the gate, issue the additions modify
then the deletions modify against `cn=<group>,<group base>`. -/
def process_operations (env : Env) :
    List (String × GroupOps) → SyncState → List ModifyCall × SyncState
  | [], s => ([], s)
  | (group, ops) :: rest, s =>
    let group_dn := "cn=" ++ group ++ "," ++ env.group_base
    let p := check_process_changes env group ops s
    if p.1 then
      let a := modify_group env group_dn LdapAction.modifyAdd ops.additions p.2
      let d := modify_group env group_dn LdapAction.modifyDelete ops.deletions a.2
      let rest2 := process_operations env rest d.2
      (a.1 ++ d.1 ++ rest2.1, rest2.2)
    else
      process_operations env rest p.2

/-- The loop of `_generate_group_operations`: per valid sync group,
compute additions, then deletions, then the override flag (the change
percentage computation reads only the additions/deletions keys present at
that point). -/
def generate_group_operations (env : Env) (source_dict destination_dict : GroupDict) :
    List String → SyncState → List (String × GroupOps) × SyncState
  | [], s => ([], s)
  | g :: rest, s =>
    let a := generate_additions env source_dict destination_dict g s
    let d := generate_deletions env destination_dict source_dict g a.2
    let ovr := check_override_required env (dictFind destination_dict g).names
      { additions := a.1, deletions := d.1, override_required := false }
    let rest2 := generate_group_operations env source_dict destination_dict rest d.2
    ((g, { additions := a.1, deletions := d.1, override_required := ovr }) :: rest2.1,
      rest2.2)

/-- Embedding of `utilities.get_next_gid_uid_number`: the in-use id list
is seeded with `[0]` before the directory results are appended, then the
gap-filling allocator runs from the configured minimum. -/
def get_next_gid_uid_number (env : Env) : Int :=
  fill_array_gaps (0 :: env.gidInUse) env.min_member_number

/-- Python dictionary assignment `d[g] = v`: replace in place when the
key exists, append otherwise. -/
def dictSet (d : GroupDict) (g : String) (v : GroupRec) : GroupDict :=
  if (d.lookup g).isSome then
    d.map (fun p => if p.1 = g then (g, v) else p)
  else d ++ [(g, v)]

/-- Embedding of `_new_ldap_group`: create a missing group on OpenLDAP,
with the MS AD gid when truthy and not the unassigned sentinel
(`if group_details.get("id") and group_details["id"] != -1`), otherwise
the next free gid, written back to the MS AD group; each failed mutation
marks the run failed but processing continues; a successful creation adds
the group (with no members) to the OpenLDAP dictionary.  Returns the
updated OpenLDAP dictionary, the updated MS AD dictionary, and the
state. -/
def new_ldap_group (env : Env) (group : String)
    (openldap_group_dictionary ad_group_dictionary : GroupDict) (s : SyncState) :
    GroupDict × GroupDict × SyncState :=
  let group_details := dictFind ad_group_dictionary group
  let new_group_dn := "cn=" ++ group ++ "," ++ env.group_base
  let idState :=
    if group_details.id ≠ 0 ∧ group_details.id ≠ -1 then
      (group_details.id, ad_group_dictionary, s)
    else
      let new_id := get_next_gid_uid_number env
      if env.gidWriteOk group_details.dn new_id then
        (new_id, dictSet ad_group_dictionary group { group_details with id := new_id },
          s)
      else
        (new_id, ad_group_dictionary, recordFailure s)
  if env.addOk new_group_dn then
    (dictSet openldap_group_dictionary group
      { id := idState.1, dn := new_group_dn, names := [] },
      idState.2.1, idState.2.2)
  else
    (openldap_group_dictionary, idState.2.1, recordFailure idState.2.2)

/-- The loop of `_add_missing_openldap_groups` over the MS AD group
names. -/
def addMissingLoop (env : Env) :
    List String → GroupDict → GroupDict → SyncState →
      GroupDict × GroupDict × SyncState
  | [], ol, ad, s => (ol, ad, s)
  | g :: rest, ol, ad, s =>
    if (ol.lookup g).isSome then addMissingLoop env rest ol ad s
    else
      let r := new_ldap_group env g ol ad s
      addMissingLoop env rest r.1 r.2.1 r.2.2

/-- Embedding of `_add_missing_openldap_groups`: every MS AD group absent
from OpenLDAP is created there. -/
def add_missing_openldap_groups (env : Env)
    (openldap_group_dictionary ad_group_dictionary : GroupDict) (s : SyncState) :
    GroupDict × GroupDict × SyncState :=
  addMissingLoop env (ad_group_dictionary.map Prod.fst)
    openldap_group_dictionary ad_group_dictionary s

/-- Embedding of the reconciliation core of `_main`, from
`_add_missing_openldap_groups` through `_process_operations` (the
snapshot building that precedes it never assigns `run_status`: a failed
snapshot search writes a negative monitoring log and exits instead).
Returns the modify calls issued and the final state, whose `run_status`
is written to the monitoring log by `_main`'s last line. -/
def group_sync_main (env : Env)
    (ad_group_dictionary openldap_group_dictionary : GroupDict) (s : SyncState) :
    List ModifyCall × SyncState :=
  let m := add_missing_openldap_groups env openldap_group_dictionary
    ad_group_dictionary s
  let valid_sync_groups := build_sync_group_list m.2.1 m.1
  let ops := generate_group_operations env m.2.1 m.1 valid_sync_groups m.2.2
  process_operations env ops.1 ops.2

/-- C10: an empty additions (or deletions) list never touches the
directory: `_modify_group` with an empty user list issues no modify call
and returns the state — in particular the run status — unchanged. -/
theorem modify_group_empty_noop (env : Env) (group_dn : String)
    (action : LdapAction) (s : SyncState) :
    modify_group env group_dn action [] s = ([], s) := by
  simp [modify_group]

/-- The run-status/failure-accounting relation between two states: the
later status is `true` exactly when the earlier one was `true` and no
recoverable failure was recorded in between (a logical AND), and the
failure count never decreases. -/
def StatusStep (a b : SyncState) : Prop :=
  (b.run_status = true ↔ (a.run_status = true ∧ b.failures = a.failures)) ∧
  a.failures ≤ b.failures

lemma statusStep_same (a b : SyncState) (hs : b.run_status = a.run_status)
    (hf : b.failures = a.failures) : StatusStep a b := by
  refine ⟨?_, by omega⟩
  rw [hs, hf]
  exact ⟨fun h => ⟨h, rfl⟩, fun h => h.1⟩

lemma statusStep_fail' (a b : SyncState) (hs : b.run_status = false)
    (hf : b.failures = a.failures + 1) : StatusStep a b := by
  refine ⟨?_, by omega⟩
  rw [hs, hf]
  constructor
  · intro h
    exact Bool.noConfusion h
  · rintro ⟨-, h2⟩
    exact absurd h2 (by omega)

lemma statusStep_fail (s : SyncState) : StatusStep s (recordFailure s) :=
  statusStep_fail' s _ rfl rfl

lemma statusStep_trans {a b c : SyncState} (h1 : StatusStep a b)
    (h2 : StatusStep b c) : StatusStep a c := by
  obtain ⟨i1, l1⟩ := h1
  obtain ⟨i2, l2⟩ := h2
  refine ⟨?_, le_trans l1 l2⟩
  rw [i2, i1]
  constructor
  · rintro ⟨⟨hs, hf1⟩, hf2⟩
    exact ⟨hs, by omega⟩
  · rintro ⟨hs, hf⟩
    exact ⟨⟨hs, by omega⟩, by omega⟩

lemma get_account_data_step (env : Env) (u : String) (s : SyncState) :
    StatusStep s (get_account_data env u s).2 := by
  rcases henv : env.primary u with _ | r
  · simp only [get_account_data, henv]
    exact statusStep_fail' _ _ rfl rfl
  · simp only [get_account_data, henv]
    exact statusStep_same _ _ rfl rfl

lemma lookup_ad_user_step (env : Env) (u : String) (s : SyncState) :
    StatusStep s (lookup_ad_user env u s).2 := by
  rcases hc : s.user_lookup_cache.lookup u with _ | cached
  · simp only [lookup_ad_user, hc]
    have hga : StatusStep s (get_account_data env u s).2 :=
      get_account_data_step env u s
    split
    · split
      · exact statusStep_trans hga (statusStep_same _ _ rfl rfl)
      · split
        · split
          · exact statusStep_trans hga (statusStep_fail' _ _ rfl rfl)
          · exact statusStep_trans hga (statusStep_same _ _ rfl rfl)
        · exact statusStep_trans hga (statusStep_fail' _ _ rfl rfl)
    · split
      · exact statusStep_trans hga (statusStep_same _ _ rfl rfl)
      · exact statusStep_trans hga (statusStep_fail' _ _ rfl rfl)
  · simp only [lookup_ad_user, hc]
    exact statusStep_same _ _ rfl rfl

lemma findUserLoop_step (env : Env) (d : String) :
    ∀ (members : List String) (found : Bool) (s : SyncState),
      StatusStep s (findUserLoop env d members found s).2 := by
  intro members
  induction members with
  | nil =>
    intro found s
    exact statusStep_same _ _ rfl rfl
  | cons m rest ih =>
    intro found s
    simp only [findUserLoop]
    exact statusStep_trans (lookup_ad_user_step env m s) (ih _ _)

lemma additionsLoop_step (env : Env) (dst : List String) (g : String) :
    ∀ (members : List String) (s : SyncState),
      StatusStep s (additionsLoop env dst g members s).2 := by
  intro members
  induction members with
  | nil =>
    intro s
    exact statusStep_same _ _ rfl rfl
  | cons m rest ih =>
    intro s
    simp only [additionsLoop]
    split
    · exact statusStep_trans (lookup_ad_user_step env m s) (ih _)
    · exact statusStep_trans (lookup_ad_user_step env m s) (ih _)

lemma deletionsLoop_step (env : Env) (src : GroupDict) (g : String) :
    ∀ (members : List String) (s : SyncState),
      StatusStep s (deletionsLoop env src g members s).2 := by
  intro members
  induction members with
  | nil =>
    intro s
    exact statusStep_same _ _ rfl rfl
  | cons m rest ih =>
    intro s
    simp only [deletionsLoop, find_user_in_source_dict]
    split
    · exact statusStep_trans (findUserLoop_step env m _ false s) (ih _)
    · exact statusStep_trans (findUserLoop_step env m _ false s) (ih _)

lemma generate_group_operations_step (env : Env) (src dst : GroupDict) :
    ∀ (groups : List String) (s : SyncState),
      StatusStep s (generate_group_operations env src dst groups s).2 := by
  intro groups
  induction groups with
  | nil =>
    intro s
    exact statusStep_same _ _ rfl rfl
  | cons g rest ih =>
    intro s
    simp only [generate_group_operations, generate_additions, generate_deletions]
    exact statusStep_trans (additionsLoop_step env _ g _ s)
      (statusStep_trans (deletionsLoop_step env src g _ _) (ih _))

lemma check_process_changes_step (env : Env) (g : String) (ops : GroupOps)
    (s : SyncState) : StatusStep s (check_process_changes env g ops s).2 := by
  simp only [check_process_changes]
  split
  · split
    · split
      · exact statusStep_same _ _ rfl rfl
      · exact statusStep_fail' _ _ rfl rfl
    · exact statusStep_same _ _ rfl rfl
  · exact statusStep_same _ _ rfl rfl

lemma modify_group_step (env : Env) (dn : String) (action : LdapAction)
    (userList : List String) (s : SyncState) :
    StatusStep s (modify_group env dn action userList s).2 := by
  simp only [modify_group]
  split
  · split
    · exact statusStep_same _ _ rfl rfl
    · exact statusStep_fail _
  · exact statusStep_same _ _ rfl rfl

lemma process_operations_step (env : Env) :
    ∀ (groupOperations : List (String × GroupOps)) (s : SyncState),
      StatusStep s (process_operations env groupOperations s).2 := by
  intro groupOperations
  induction groupOperations with
  | nil =>
    intro s
    exact statusStep_same _ _ rfl rfl
  | cons p rest ih =>
    intro s
    obtain ⟨g, ops⟩ := p
    simp only [process_operations]
    split
    · exact statusStep_trans (check_process_changes_step env g ops s)
        (statusStep_trans (modify_group_step env _ _ _ _)
          (statusStep_trans (modify_group_step env _ _ _ _) (ih _)))
    · exact statusStep_trans (check_process_changes_step env g ops s) (ih _)

lemma new_ldap_group_step (env : Env) (g : String) (ol ad : GroupDict)
    (s : SyncState) : StatusStep s (new_ldap_group env g ol ad s).2.2 := by
  simp only [new_ldap_group]
  split
  · split
    · exact statusStep_same _ _ rfl rfl
    · split
      · exact statusStep_same _ _ rfl rfl
      · exact statusStep_fail _
  · split
    · exact statusStep_fail _
    · split
      · exact statusStep_fail _
      · exact statusStep_trans (statusStep_fail _) (statusStep_fail _)

lemma addMissingLoop_step (env : Env) :
    ∀ (groups : List String) (ol ad : GroupDict) (s : SyncState),
      StatusStep s (addMissingLoop env groups ol ad s).2.2 := by
  intro groups
  induction groups with
  | nil =>
    intro ol ad s
    exact statusStep_same _ _ rfl rfl
  | cons g rest ih =>
    intro ol ad s
    simp only [addMissingLoop]
    split
    · exact ih _ _ _
    · exact statusStep_trans (new_ldap_group_step env g ol ad s) (ih _ _ _)

/-- A normalized attribute value of `all_users` after
`_convert_lists_to_strings`: a string, an integer, or a list (only
`objectClass` keeps more than one entry). -/
inductive AVal where
  | str (v : String)
  | int (v : Int)
  | list (v : List String)
deriving DecidableEq

/-- Python truthiness of an attribute value (`""`, `0` and `[]` are
falsy). -/
def avTruthy : AVal → Bool
  | AVal.str v => v ≠ ""
  | AVal.int v => v ≠ 0
  | AVal.list v => v ≠ []

/-- One directory's view of a user inside `all_users`: the entry's `dn`,
its attributes, and the pending `changes` map (in the source the `dn` and
`changes` keys live inside the same per-server dictionary). -/
structure UserDirData where
  dn : String
  attrs : List (String × AVal)
  changes : List (String × AVal)
deriving DecidableEq

/-- One user of the `all_users` cache: at most one record per
directory; absence of a key means the user does not exist there. -/
structure UserData where
  ad : Option UserDirData
  openldap : Option UserDirData
deriving DecidableEq

/-- The `all_users` cache, keyed by canonical username, in Python
insertion order. -/
abbrev AllUsers := List (String × UserData)

/-- The two directories (`"ad"` / `"openldap"` server-type strings). -/
inductive ServerT where
  | ad
  | openldap
deriving DecidableEq

/-- Python dictionary assignment `d[k] = v` on a generic string-keyed
map. -/
def pydictSet {β : Type} (d : List (String × β)) (k : String) (v : β) :
    List (String × β) :=
  if (d.lookup k).isSome then d.map (fun p => if p.1 = k then (k, v) else p)
  else d ++ [(k, v)]

/-- The chosen directory's record of a user. -/
def sideOf (u : UserData) : ServerT → Option UserDirData
  | ServerT.ad => u.ad
  | ServerT.openldap => u.openldap

/-- `all_users[user][server]`, when present. -/
def getUserSide (au : AllUsers) (user : String) (server : ServerT) :
    Option UserDirData :=
  (au.lookup user).bind (fun u => sideOf u server)

/-- Apply `f` to `all_users[user][server]` in place (the call sites
guarantee the key exists). -/
def mapUserSide (au : AllUsers) (user : String) (server : ServerT)
    (f : UserDirData → UserDirData) : AllUsers :=
  au.map (fun p =>
    if p.1 = user then
      (p.1,
        match server with
        | ServerT.ad => { p.2 with ad := p.2.ad.map f }
        | ServerT.openldap => { p.2 with openldap := p.2.openldap.map f })
    else p)

/-- `all_users[user][server]["changes"][k] = v`. -/
def setUserChange (au : AllUsers) (user : String) (server : ServerT)
    (k : String) (v : AVal) : AllUsers :=
  mapUserSide au user server (fun d => { d with changes := pydictSet d.changes k v })

/-- Environment of a user-sync run (`user_sync.py`): the configuration
the status-relevant control flow reads, the externally supplied password
encodings (password generation and hashing are opaque capabilities; their
only effect on `all_users` is two `changes` entries), the
transliteration function `unidecode`, the OpenLDAP id/SID spaces, and the
result codes of the three mutating directory calls. -/
structure UserSyncEnv where
  new_user_object_classes : List String
  ms_ad_active_account_ids : List Int
  enable_user_mask : List (String × AVal)
  disable_user_mask : List (String × AVal)
  ad_local_copy_attrs : List (String × String)
  ad_to_ol_remote_synced_attrs : List (String × String)
  ol_local_copy_attrs : List (String × String)
  ol_to_ad_remote_synced_attrs : List (String × String)
  user_base : String
  sid_prefix : String
  sidSuffixes : List Nat
  uidInUse : List Int
  min_uid_number : Int
  crypt_pw : AVal
  nt_pw : AVal
  unidecode : String → String
  classModifyOk : String → String → Bool
  userAddOk : String → Bool
  userModifyOk : String → List (String × AVal) → Bool

/-- Embedding of `_get_next_sambasid`: the numeric suffixes of existing
SID values, seeded with `[0]`, maximum plus one, re-prefixed (gaps are
not filled). -/
def get_next_sambasid (env : UserSyncEnv) : String :=
  env.sid_prefix ++ toString (env.sidSuffixes.foldl Nat.max 0 + 1)

/-- Embedding of `_set_random_ldap_password`: for each requested password
type, queue the externally encoded secret in the user's `changes` map
(password generation itself cannot fail recoverably — exhaustion
hard-exits). -/
def set_random_ldap_password (env : UserSyncEnv) (server : ServerT)
    (user : String) (password_types : List String) (au : AllUsers) : AllUsers :=
  password_types.foldl (fun acc pt =>
    if pt = "userPassword" then setUserChange acc user server "userPassword" env.crypt_pw
    else if pt = "sambaNTPassword" then
      setUserChange acc user server "sambaNTPassword" env.nt_pw
    else acc) au

/-- Embedding of `_add_class_to_ldap_account` (always invoked with the
OpenLDAP server, whose schema supplies the user DN): the
`sambaSamAccount` class additionally allocates a SID and queues an NT
password; the modify's non-success result code marks the run failed. -/
def add_class_to_ldap_account (env : UserSyncEnv) (_server : ServerT)
    (user : String) (ldap_object_class : String) (au : AllUsers) (s : SyncState) :
    AllUsers × SyncState :=
  let user_dn := "uid=" ++ user ++ "," ++ env.user_base
  let au2 :=
    if ldap_object_class = "sambaSamAccount" then
      set_random_ldap_password env ServerT.openldap user ["sambaNTPassword"] au
    else au
  if env.classModifyOk user_dn ldap_object_class then (au2, s)
  else (au2, recordFailure s)

/-- Embedding of `_new_ldap_account`: build the new entry from the mask
(uid, cn, a fresh SID, home directory, the next free uid number via the
gap-filling allocator), add it; on success store it in `all_users` with
empty `changes` and queue both passwords, on failure mark the run
failed. -/
def new_ldap_account (env : UserSyncEnv) (_server : ServerT) (user : String)
    (au : AllUsers) (s : SyncState) : AllUsers × SyncState :=
  let new_user_dn := "uid=" ++ user ++ "," ++ env.user_base
  let attrs1 := pydictSet (pydictSet ([] : List (String × AVal)) "uid" (AVal.str user))
    "cn" (AVal.str user)
  let attrs2 := pydictSet attrs1 "sambaSID" (AVal.str (get_next_sambasid env))
  let attrs3 := pydictSet attrs2 "homeDirectory" (AVal.str ("/home/" ++ user))
  let attrs4 := pydictSet attrs3 "uidNumber"
    (AVal.int (fill_array_gaps (0 :: env.uidInUse) env.min_uid_number))
  if env.userAddOk new_user_dn then
    let au2 := au.map (fun p =>
      if p.1 = user then
        (p.1, { p.2 with
          openldap := some { dn := new_user_dn, attrs := attrs4, changes := [] } })
      else p)
    (set_random_ldap_password env ServerT.openldap user
      ["userPassword", "sambaNTPassword"] au2, s)
  else (au, recordFailure s)

/-- The `for attr in openldap_schema["enable_user_mask"]` loop of
`_check_change`: each attribute whose current OpenLDAP value satisfies
the operator against the disable-mask value gets the applied mask's value
queued, latching `changed`. -/
def checkChangeLoop (env : UserSyncEnv) (user : String) (op_is_eq : Bool)
    (mask : List (String × AVal)) :
    List (String × AVal) → AllUsers → Bool → AllUsers × Bool
  | [], au, changed => (au, changed)
  | p :: rest, au, changed =>
    let attr := p.1
    let current := ((getUserSide au user ServerT.openldap).bind
      (fun d => d.attrs.lookup attr)).getD (AVal.str "")
    let disabledVal := (env.disable_user_mask.lookup attr).getD (AVal.str "")
    let test := if op_is_eq then current = disabledVal else current ≠ disabledVal
    if test then
      checkChangeLoop env user op_is_eq mask rest
        (setUserChange au user ServerT.openldap attr
          ((mask.lookup attr).getD (AVal.str ""))) true
    else checkChangeLoop env user op_is_eq mask rest au changed

/-- Embedding of `_check_change` (no `run_status` access): apply the
enable or disable mask when the operator fires, and reset both passwords
if anything changed. -/
def check_change (env : UserSyncEnv) (user : String) (op_is_eq : Bool)
    (mask : List (String × AVal)) (au : AllUsers) : AllUsers :=
  let r := checkChangeLoop env user op_is_eq mask env.enable_user_mask au false
  if r.2 then
    set_random_ldap_password env ServerT.openldap user
      ["userPassword", "sambaNTPassword"] r.1
  else r.1

/-- The `for ldap_object_class in ...["new_user"]["mask"]["objectClass"]`
loop of `_check_user_enable_disable`: each class missing from the user's
OpenLDAP `objectClass` is added via `_add_class_to_ldap_account`. -/
def addClassLoop (env : UserSyncEnv) (user : String) :
    List String → AllUsers → SyncState → AllUsers × SyncState
  | [], au, s => (au, s)
  | cls :: rest, au, s =>
    let ocs :=
      match (getUserSide au user ServerT.openldap).bind
        (fun d => d.attrs.lookup "objectClass") with
      | some (AVal.list l) => l
      | _ => []
    if cls ∈ ocs then addClassLoop env user rest au s
    else
      let r := add_class_to_ldap_account env ServerT.openldap user cls au s
      addClassLoop env user rest r.1 r.2

/-- The `for user in self.all_users:` loop of
`_check_user_enable_disable`: users in both directories get missing
classes added and their enable/disable state amended; users only in MS AD
whose `uid` is not the `"NONE"` sentinel get a new OpenLDAP account;
OpenLDAP-only users are only logged. -/
def cuedLoop (env : UserSyncEnv) :
    List String → AllUsers → SyncState → AllUsers × SyncState
  | [], au, s => (au, s)
  | user :: rest, au, s =>
    match au.lookup user with
    | none => cuedLoop env rest au s
    | some udata =>
      if udata.openldap.isSome ∧ udata.ad.isSome then
        let r := addClassLoop env user env.new_user_object_classes au s
        let active : Bool :=
          match udata.ad.bind (fun d => d.attrs.lookup "userAccountControl") with
          | some (AVal.int n) => env.ms_ad_active_account_ids.contains n
          | _ => false
        let au2 :=
          if active then check_change env user true env.enable_user_mask r.1
          else check_change env user false env.disable_user_mask r.1
        cuedLoop env rest au2 r.2
      else if udata.ad.isSome ∧ ¬ udata.openldap.isSome then
        if (udata.ad.bind (fun d => d.attrs.lookup "uid")) ≠ some (AVal.str "NONE") then
          let r := new_ldap_account env ServerT.openldap user au s
          cuedLoop env rest r.1 r.2
        else cuedLoop env rest au s
      else cuedLoop env rest au s

/-- Embedding of `_check_user_enable_disable`. -/
def check_user_enable_disable (env : UserSyncEnv) (au : AllUsers)
    (s : SyncState) : AllUsers × SyncState :=
  cuedLoop env (au.map Prod.fst) au s

/-- Embedding of `_attr_ascii_compare` (no `run_status` access): an empty
source string yields nothing; toward OpenLDAP a string source value is
transliterated before the comparison and returned transliterated; every
other combination is an exact comparison. -/
def attr_ascii_compare (env : UserSyncEnv) (au : AllUsers) (user : String)
    (src : ServerT) (attr : String) (dst : ServerT)
    (synced_attrs : List (String × String)) : Option AVal :=
  let sv := ((getUserSide au user src).bind
    (fun d => d.attrs.lookup attr)).getD (AVal.str "")
  let dv := ((getUserSide au user dst).bind
    (fun d => d.attrs.lookup ((synced_attrs.lookup attr).getD ""))).getD (AVal.str "")
  if sv = AVal.str "" then none
  else
    match dst, sv with
    | ServerT.openldap, AVal.str sstr =>
      if ¬ (AVal.str (env.unidecode sstr) = dv) then some (AVal.str (env.unidecode sstr))
      else none
    | _, _ => if ¬ (sv = dv) then some sv else none

/-- The `for attr in synced_attrs:` loop of `_build_attr_changes`: a
pending source-side change is authoritative and copied as-is; otherwise
the comparison result is queued — under a truthiness test when the source
side has pending changes for other attributes (the walrus `if rv := ...:`)
and under an `is not None` test when it has none. -/
def bacAttrLoop (env : UserSyncEnv) (user : String) (src dst : ServerT)
    (synced_attrs : List (String × String)) :
    List (String × String) → AllUsers → AllUsers
  | [], au => au
  | p :: rest, au =>
    let attr := p.1
    let dstAttr := p.2
    let source_changes : List (String × AVal) :=
      ((getUserSide au user src).map (fun d => d.changes)).getD []
    let au2 :=
      if source_changes ≠ [] then
        match source_changes.lookup attr with
        | some v => setUserChange au user dst dstAttr v
        | none =>
          match attr_ascii_compare env au user src attr dst synced_attrs with
          | some v => if avTruthy v then setUserChange au user dst dstAttr v else au
          | none => au
      else
        match attr_ascii_compare env au user src attr dst synced_attrs with
        | some v => setUserChange au user dst dstAttr v
        | none => au
    bacAttrLoop env user src dst synced_attrs rest au2

/-- The user loop of `_build_attr_changes`: exception-excluded users
(`uid == "NONE"`) are skipped, and only users present in both the source
and destination directory of the pass are processed. -/
def bacUserLoop (env : UserSyncEnv) (src dst : ServerT)
    (synced_attrs : List (String × String)) :
    List String → AllUsers → AllUsers
  | [], au => au
  | user :: rest, au =>
    let udata := (au.lookup user).getD { ad := none, openldap := none }
    let uid := (udata.ad.bind (fun d => d.attrs.lookup "uid")).getD (AVal.str "")
    if uid = AVal.str "NONE" then bacUserLoop env src dst synced_attrs rest au
    else if (sideOf udata dst).isSome ∧ (sideOf udata src).isSome then
      bacUserLoop env src dst synced_attrs rest
        (bacAttrLoop env user src dst synced_attrs synced_attrs au)
    else bacUserLoop env src dst synced_attrs rest au

/-- Embedding of `_build_attr_changes` (no `run_status` access): a
missing or empty attribute map (`if synced_attrs:`) makes the pass a
no-op. -/
def build_attr_changes (env : UserSyncEnv) (src dst : ServerT)
    (synced_attrs : List (String × String)) (au : AllUsers) : AllUsers :=
  if synced_attrs = [] then au
  else bacUserLoop env src dst synced_attrs (au.map Prod.fst) au

/-- The `for server_type in user_data:` loop of `_update_ldap_account`:
each directory side with a non-empty `changes` map gets one modify call,
whose non-success result code marks the run failed. -/
def updateSidesLoop (env : UserSyncEnv) : List UserDirData → SyncState → SyncState
  | [], s => s
  | d :: rest, s =>
    if d.changes ≠ [] then
      if env.userModifyOk d.dn d.changes then updateSidesLoop env rest s
      else updateSidesLoop env rest (recordFailure s)
    else updateSidesLoop env rest s

/-- Embedding of `_update_ldap_account` for one user. -/
def update_ldap_account (env : UserSyncEnv) (user : String) (au : AllUsers)
    (s : SyncState) : SyncState :=
  let sides : List UserDirData :=
    match au.lookup user with
    | none => []
    | some u =>
      (match u.ad with | some d => [d] | none => []) ++
      (match u.openldap with | some d => [d] | none => [])
  updateSidesLoop env sides s

/-- The final `for user in self.all_users:` loop of `user_sync._main`. -/
def updateAllLoop (env : UserSyncEnv) : List String → AllUsers → SyncState → SyncState
  | [], _, s => s
  | user :: rest, au, s =>
    updateAllLoop env rest au (update_ldap_account env user au s)

/-- Embedding of `user_sync.AdLdapUserSync._main` from
`_check_user_enable_disable` through the final `_update_ldap_account`
loop.  The stages before it (`_get_all_users`,
`_convert_lists_to_strings`, `utilities.user_exception_lookup`) never
reference `run_status` (their failure modes hard-exit after writing a
negative monitoring log); the `all_users` cache they produce is the
input here.  The returned state's `run_status` is what
`write_monitoring_log` persists on the last line of `_main`. -/
def user_sync_main (env : UserSyncEnv) (all_users : AllUsers) (s : SyncState) :
    SyncState :=
  let r := check_user_enable_disable env all_users s
  let au1 := build_attr_changes env ServerT.ad ServerT.ad env.ad_local_copy_attrs r.1
  let au2 := build_attr_changes env ServerT.ad ServerT.openldap
    env.ad_to_ol_remote_synced_attrs au1
  let au3 := build_attr_changes env ServerT.openldap ServerT.openldap
    env.ol_local_copy_attrs au2
  let au4 := build_attr_changes env ServerT.openldap ServerT.ad
    env.ol_to_ad_remote_synced_attrs au3
  updateAllLoop env (au4.map Prod.fst) au4 r.2

lemma add_class_to_ldap_account_step (env : UserSyncEnv) (server : ServerT)
    (user cls : String) (au : AllUsers) (s : SyncState) :
    StatusStep s (add_class_to_ldap_account env server user cls au s).2 := by
  simp only [add_class_to_ldap_account]
  split
  · exact statusStep_same _ _ rfl rfl
  · exact statusStep_fail _

lemma new_ldap_account_step (env : UserSyncEnv) (server : ServerT)
    (user : String) (au : AllUsers) (s : SyncState) :
    StatusStep s (new_ldap_account env server user au s).2 := by
  simp only [new_ldap_account]
  split
  · exact statusStep_same _ _ rfl rfl
  · exact statusStep_fail _

lemma addClassLoop_step (env : UserSyncEnv) (user : String) :
    ∀ (classes : List String) (au : AllUsers) (s : SyncState),
      StatusStep s (addClassLoop env user classes au s).2 := by
  intro classes
  induction classes with
  | nil =>
    intro au s
    exact statusStep_same _ _ rfl rfl
  | cons cls rest ih =>
    intro au s
    simp only [addClassLoop]
    split
    · exact ih _ _
    · exact statusStep_trans
        (add_class_to_ldap_account_step env ServerT.openldap user cls au s) (ih _ _)

lemma cuedLoop_step (env : UserSyncEnv) :
    ∀ (users : List String) (au : AllUsers) (s : SyncState),
      StatusStep s (cuedLoop env users au s).2 := by
  intro users
  induction users with
  | nil =>
    intro au s
    exact statusStep_same _ _ rfl rfl
  | cons user rest ih =>
    intro au s
    simp only [cuedLoop]
    split
    · exact ih _ _
    · split
      · exact statusStep_trans (addClassLoop_step env user _ au s) (ih _ _)
      · split
        · split
          · exact statusStep_trans
              (new_ldap_account_step env ServerT.openldap user au s) (ih _ _)
          · exact ih _ _
        · exact ih _ _

lemma updateSidesLoop_step (env : UserSyncEnv) :
    ∀ (sides : List UserDirData) (s : SyncState),
      StatusStep s (updateSidesLoop env sides s) := by
  intro sides
  induction sides with
  | nil =>
    intro s
    exact statusStep_same _ _ rfl rfl
  | cons d rest ih =>
    intro s
    simp only [updateSidesLoop]
    split
    · split
      · exact ih _
      · exact statusStep_trans (statusStep_fail _) (ih _)
    · exact ih _

lemma updateAllLoop_step (env : UserSyncEnv) :
    ∀ (users : List String) (au : AllUsers) (s : SyncState),
      StatusStep s (updateAllLoop env users au s) := by
  intro users
  induction users with
  | nil =>
    intro au s
    exact statusStep_same _ _ rfl rfl
  | cons user rest ih =>
    intro au s
    simp only [updateAllLoop, update_ldap_account]
    exact statusStep_trans (updateSidesLoop_step env _ s) (ih _ _)

/-- C9: in both runners the run status behaves as a logical AND over the
recoverable-failure outcomes.  For the group-sync pipeline
(`group_sync_main`) and the user-sync pipeline (`user_sync_main`): for
any starting state, the final status is `true` iff the starting status
was `true` and the failure counter (bumped exactly at the
`self.run_status = False` sites) did not move, and the counter never
decreases (`StatusStep`); the status starts as `true` (the class
attribute `run_status: bool = True` of both classes); once `false` it
can never become `true` again; hence the status each `_main` writes to
the monitoring log at the end of the run is `true` iff no recoverable
failure occurred during that run. -/
theorem run_status_and_accumulation :
    (∀ (env : Env) (ad ol : GroupDict) (s : SyncState),
      StatusStep s (group_sync_main env ad ol s).2) ∧
    (∀ (uenv : UserSyncEnv) (au : AllUsers) (s : SyncState),
      StatusStep s (user_sync_main uenv au s)) ∧
    initialSyncState.run_status = true ∧
    (∀ (env : Env) (ad ol : GroupDict) (s : SyncState),
      s.run_status = false → (group_sync_main env ad ol s).2.run_status = false) ∧
    (∀ (uenv : UserSyncEnv) (au : AllUsers) (s : SyncState),
      s.run_status = false → (user_sync_main uenv au s).run_status = false) ∧
    (∀ (env : Env) (ad ol : GroupDict),
      ((group_sync_main env ad ol initialSyncState).2.run_status = true ↔
        (group_sync_main env ad ol initialSyncState).2.failures = 0)) ∧
    (∀ (uenv : UserSyncEnv) (au : AllUsers),
      ((user_sync_main uenv au initialSyncState).run_status = true ↔
        (user_sync_main uenv au initialSyncState).failures = 0)) := by
  have hmain : ∀ (env : Env) (ad ol : GroupDict) (s : SyncState),
      StatusStep s (group_sync_main env ad ol s).2 := by
    intro env ad ol s
    simp only [group_sync_main, add_missing_openldap_groups]
    exact statusStep_trans (addMissingLoop_step env _ _ _ _)
      (statusStep_trans (generate_group_operations_step env _ _ _ _)
        (process_operations_step env _ _))
  have humain : ∀ (uenv : UserSyncEnv) (au : AllUsers) (s : SyncState),
      StatusStep s (user_sync_main uenv au s) := by
    intro uenv au s
    simp only [user_sync_main, check_user_enable_disable]
    exact statusStep_trans (cuedLoop_step uenv _ _ _) (updateAllLoop_step uenv _ _ _)
  have hstick : ∀ (a b : SyncState), StatusStep a b → a.run_status = false →
      b.run_status = false := by
    intro a b h ha
    rcases hfin : b.run_status with _ | _
    · rfl
    · have := h.1.mp hfin
      rw [ha] at this
      exact Bool.noConfusion this.1
  have hiff : ∀ (b : SyncState), StatusStep initialSyncState b →
      (b.run_status = true ↔ b.failures = 0) := by
    intro b h
    rw [h.1]
    constructor
    · rintro ⟨-, hf⟩
      exact hf
    · intro hf
      exact ⟨rfl, hf⟩
  refine ⟨hmain, humain, rfl, ?_, ?_, ?_, ?_⟩
  · intro env ad ol s hs
    exact hstick s _ (hmain env ad ol s) hs
  · intro uenv au s hs
    exact hstick s _ (humain uenv au s) hs
  · intro env ad ol
    exact hiff _ (hmain env ad ol initialSyncState)
  · intro uenv au
    exact hiff _ (humain uenv au initialSyncState)

end AdLdapSync
